import Mathlib

/-!
Shallow embedding of the claudefather task-queue orchestrator.

The TypeScript sources embedded here:
  src/src/types.ts                (data model)
  src/src/validators.ts           (OutputValidator)
  src/src/concurrency-manager.ts  (ConcurrencyManager)
  src/unnamed/part_004            (StateManager: loadState, resetTask)
  src/src/supervisor.ts           (AISupervisor.processTask, AISupervisor.run)

Pure functions become Lean functions; the retry loop becomes a
fuel-indexed recursion that records its observable trace (worker
invocations, persisted states, process-exit calls); the semaphore
becomes a step function on an explicit state record; fallible code
returns Except.  JavaScript regular expressions are embedded as
executable character-list scanners, each annotated with the regex it
models.
-/

set_option maxRecDepth 2000

/-! ## Regular-expression embedding helpers -/

/-- The characters of a string lower-cased, the embedding of
toLowerCase for the ASCII patterns the validator uses. -/
def lowerL (s : String) : List Char := s.data.map Char.toLower

/-- Lines of a character list, split on the newline character.  A
JavaScript regular expression without the dotAll flag confines a dot
to a single line, so patterns containing a dot are tested line by
line. -/
def linesOf : List Char → List (List Char)
  | [] => [[]]
  | c :: cs =>
    let ls := linesOf cs
    if c = '\n' then [] :: ls
    else
      match ls with
      | [] => [[c]]
      | l :: rest => (c :: l) :: rest

/-- Leading and trailing whitespace removed, the embedding of
String.prototype.trim. -/
def trimL (cs : List Char) : List Char :=
  ((cs.dropWhile Char.isWhitespace).reverse.dropWhile Char.isWhitespace).reverse

/-- Is pat a contiguous run inside cs? -/
def infixOfL (pat : List Char) : List Char → Bool
  | [] => pat.isEmpty
  | c :: cs => List.isPrefixOf pat (c :: cs) || infixOfL pat cs

/-- Substring containment, the embedding of testing a regex that is a
bare literal. -/
def containsStr (s pat : String) : Bool := infixOfL pat.data s.data

/-- Case-insensitive substring containment, for regexes with the i flag
(the pattern argument is expected in lower case). -/
def containsLower (s pat : String) : Bool := infixOfL pat.data (lowerL s)

/-- Drop everything up to and including the first occurrence of the
literal pat; none when pat does not occur. -/
def dropAfterFirst (pat : List Char) : List Char → Option (List Char)
  | [] => if pat.isEmpty then some [] else none
  | c :: cs =>
    if List.isPrefixOf pat (c :: cs) then some (List.drop pat.length (c :: cs))
    else dropAfterFirst pat cs

/-- Drop everything up to and including the first character satisfying
the class p; none when no such character occurs. -/
def dropAfterCls (p : Char → Bool) : List Char → Option (List Char)
  | [] => none
  | c :: cs => if p c then some cs else dropAfterCls p cs

/-- One token of an embedded regex: a literal, or a one-character
class.  Tokens in a sequence are implicitly separated by a dot-star
gap. -/
inductive RegTok where
  | lit (s : String)
  | cls (p : Char → Bool)

/-- Match a sequence of tokens, in order, with arbitrary gaps between
them, the embedding of a regex of the shape tok1.*tok2.*tok3 applied
to a single line. -/
def seqMatch : List RegTok → List Char → Bool
  | [], _ => true
  | RegTok.lit p :: ts, cs =>
    match dropAfterFirst p.data cs with
    | some rest => seqMatch ts rest
    | none => false
  | RegTok.cls p :: ts, cs =>
    match dropAfterCls p cs with
    | some rest => seqMatch ts rest
    | none => false

/-- Does p hold at some suffix start position of the character list? -/
def scanAny (p : List Char → Bool) : List Char → Bool
  | [] => p []
  | c :: cs => p (c :: cs) || scanAny p cs

/-- Does some line of s satisfy p? -/
def anyLine (s : String) (p : List Char → Bool) : Bool := (linesOf s.data).any p

/-! ## Contiguous numeric scanners -/

/-- Embedding of a match of \d+\.\d+s starting exactly here. -/
def timingAt : List Char → Bool
  | [] => false
  | c :: cs =>
    c.isDigit &&
      match cs.dropWhile Char.isDigit with
      | '.' :: cs2 =>
        match cs2 with
        | d :: cs3 =>
          d.isDigit &&
            (match cs3.dropWhile Char.isDigit with
             | 's' :: _ => true
             | _ => false)
        | [] => false
      | _ => false

/-- Embedding of a match of \d+\.?\d*s starting exactly here. -/
def numThenSAt : List Char → Bool
  | [] => false
  | c :: cs =>
    c.isDigit &&
      match cs.dropWhile Char.isDigit with
      | '.' :: cs2 =>
        (match cs2.dropWhile Char.isDigit with
         | 's' :: _ => true
         | _ => false)
      | 's' :: _ => true
      | _ => false

/-- Embedding of a match of the case-insensitive Built? in \d+\.?\d*s
starting exactly here (input already lower-cased). -/
def builtInAt (cs : List Char) : Bool :=
  (List.isPrefixOf "built in ".data cs && numThenSAt (List.drop 9 cs)) ||
  (List.isPrefixOf "buil in ".data cs && numThenSAt (List.drop 8 cs))

/-- Embedding of a match of error\s*: starting exactly here (input
already lower-cased); \s is embedded as Char.isWhitespace. -/
def errorColonAt (cs : List Char) : Bool :=
  List.isPrefixOf "error".data cs &&
    (match (List.drop 5 cs).dropWhile Char.isWhitespace with
     | ':' :: _ => true
     | _ => false)

/-- Embedding of a match of \d+\s+errors? starting exactly here (input
already lower-cased). -/
def numErrorsAt : List Char → Bool
  | [] => false
  | c :: cs =>
    c.isDigit &&
      (match cs.dropWhile Char.isDigit with
       | w :: rest =>
         w.isWhitespace &&
           List.isPrefixOf "error".data ((w :: rest).dropWhile Char.isWhitespace)
       | [] => false)

/-- A digit from 1 to 9, the character class of exit code.*[1-9]. -/
def nonzeroDigit (c : Char) : Bool := c.isDigit && c != '0'

/-! ## Data model (src/src/types.ts) -/

/-- Task status enum - defines all possible states. -/
inductive TaskStatus where
  | VERIFIED_COMPLETE
  | TASK_COMPLETE
  | HUMAN_REVIEW_REQUIRED
  | TESTS_FAILING_STUCK
  | BUILD_FAILING_STUCK
  | LINT_ERRORS_STUCK
  | MISSING_INFORMATION
  | EXTERNAL_DEPENDENCY_BLOCKED
  | MERGE_CONFLICT_DETECTED
  | NEEDS_RETRY
deriving DecidableEq, Repr

/-- Represents a single command execution output. -/
structure CommandOutput where
  exitCode : Int
  output : String
  summary : String
deriving DecidableEq, Repr

/-- Verification results from a task. -/
structure Verification where
  tests : CommandOutput
  build : CommandOutput
  lint : CommandOutput
deriving DecidableEq, Repr

/-- Git status information. -/
structure GitStatus where
  branch : String
  uncommittedChanges : Bool
  lastCommitMessage : String
  lastCommitSha : String
deriving DecidableEq, Repr

/-- Assumption made by the worker during execution. -/
structure Assumption where
  description : String
  reasoning : String
deriving DecidableEq, Repr

/-- Workaround applied by the worker. -/
structure Workaround where
  issue : String
  solution : String
deriving DecidableEq, Repr

/-- Kinds of validation issue found by the supervisor. -/
inductive IssueType where
  | exit_code_mismatch
  | invalid_format
  | suspicious_content
  | git_inconsistency
deriving DecidableEq, Repr

/-- Validation issue found by the supervisor. -/
structure ValidationIssue where
  type : IssueType
  message : String
deriving DecidableEq, Repr

/-- Feedback to provide on retry. -/
structure RetryFeedback where
  issues : List String
  instruction : String
deriving DecidableEq, Repr

/-- Main task state - written by the worker, read by the supervisor. -/
structure TaskState where
  taskId : String
  status : TaskStatus
  branch : Option String := none
  commitSha : Option String := none
  verification : Verification
  gitStatus : GitStatus
  blockerContext : Option String := none
  assumptions : Option (List Assumption) := none
  workarounds : Option (List Workaround) := none
  attemptNumber : Int
  startedAt : String
  completedAt : String
  filesChanged : List String
  summary : String
  feedback : Option RetryFeedback := none
  validationIssues : Option (List ValidationIssue) := none
deriving DecidableEq, Repr

/-- Validation result. -/
structure ValidationResult where
  valid : Bool
  issues : List ValidationIssue
deriving DecidableEq, Repr

/-! ## OutputValidator (src/src/validators.ts) -/

namespace OutputValidator

/-- Embeds looksLikeSuccessfulTestOutput: at least 3 of the 5 patterns
PASS or the check mark, Test Suites?:.*passed (i), Tests?:.*\d+.*passed (i),
\d+\.\d+s, tests/ must match. -/
def looksLikeSuccessfulTestOutput (output : String) : Bool :=
  let p1 := containsStr output "PASS" || containsStr output "✓"
  let p2 := anyLine output (fun l =>
    seqMatch [RegTok.lit "test suite:", RegTok.lit "passed"] (l.map Char.toLower) ||
    seqMatch [RegTok.lit "test suites:", RegTok.lit "passed"] (l.map Char.toLower))
  let p3 := anyLine output (fun l =>
    seqMatch [RegTok.lit "test:", RegTok.cls Char.isDigit, RegTok.lit "passed"] (l.map Char.toLower) ||
    seqMatch [RegTok.lit "tests:", RegTok.cls Char.isDigit, RegTok.lit "passed"] (l.map Char.toLower))
  let p4 := scanAny timingAt output.data
  let p5 := containsStr output "tests/"
  (List.filter (fun b => b) [p1, p2, p3, p4, p5]).length ≥ 3

/-- Embeds looksLikeTestFailure: at least 2 of the 3 patterns
FAIL or a cross mark, Tests?:.*\d+.*fail (i), Error:|Expected|Received (i). -/
def looksLikeTestFailure (output : String) : Bool :=
  let p1 := containsStr output "FAIL" || containsStr output "✗" || containsStr output "×"
  let p2 := anyLine output (fun l =>
    seqMatch [RegTok.lit "test:", RegTok.cls Char.isDigit, RegTok.lit "fail"] (l.map Char.toLower) ||
    seqMatch [RegTok.lit "tests:", RegTok.cls Char.isDigit, RegTok.lit "fail"] (l.map Char.toLower))
  let p3 := containsLower output "error:" || containsLower output "expected" ||
    containsLower output "received"
  (List.filter (fun b => b) [p1, p2, p3]).length ≥ 2

/-- Embeds looksLikeRealBuildOutput: at least 2 of the 5 patterns
Built? in \d+\.?\d*s (i), Compiled|Successfully (i), webpack|vite|tsc|turbo (i),
a check mark then built (i), dist/|build/. -/
def looksLikeRealBuildOutput (output : String) : Bool :=
  let p1 := scanAny builtInAt (lowerL output)
  let p2 := containsLower output "compiled" || containsLower output "successfully"
  let p3 := containsLower output "webpack" || containsLower output "vite" ||
    containsLower output "tsc" || containsLower output "turbo"
  let p4 := anyLine output (fun l =>
    seqMatch [RegTok.lit "✓", RegTok.lit "built"] (l.map Char.toLower))
  let p5 := containsStr output "dist/" || containsStr output "build/"
  (List.filter (fun b => b) [p1, p2, p3, p4, p5]).length ≥ 2

/-- Embeds looksLikeBuildFailure: at least 1 of the 4 patterns
error|failed|unable (i), TypeError|SyntaxError (i), Cannot find|no such file (i),
exit code.*[1-9] (i). -/
def looksLikeBuildFailure (output : String) : Bool :=
  let p1 := containsLower output "error" || containsLower output "failed" ||
    containsLower output "unable"
  let p2 := containsLower output "typeerror" || containsLower output "syntaxerror"
  let p3 := containsLower output "cannot find" || containsLower output "no such file"
  let p4 := anyLine output (fun l =>
    seqMatch [RegTok.lit "exit code", RegTok.cls nonzeroDigit] (l.map Char.toLower))
  (List.filter (fun b => b) [p1, p2, p3, p4]).length ≥ 1

/-- Embeds looksLikeLintSuccess: some of the patterns
no (linting |)errors? (i), a check mark or pass (i), an empty line
(the multiline anchor pair) matches. -/
def looksLikeLintSuccess (output : String) : Bool :=
  let p1 := containsLower output "no linting error" || containsLower output "no error"
  let p2 := containsStr output "✓" || containsLower output "pass"
  let p3 := (linesOf output.data).any List.isEmpty
  p1 || p2 || p3

/-- Embeds looksLikeLintFailure: some of the patterns
error\s*: (i), \d+\s+errors? (i), warnings?: (i), eslint|prettier (i) matches. -/
def looksLikeLintFailure (output : String) : Bool :=
  let p1 := scanAny errorColonAt (lowerL output)
  let p2 := scanAny numErrorsAt (lowerL output)
  let p3 := containsLower output "warning:" || containsLower output "warnings:"
  let p4 := containsLower output "eslint" || containsLower output "prettier"
  p1 || p2 || p3 || p4

/-- Embeds looksLikeCommitSha: the full-string regex [0-9a-f]\x7b7,40\x7d,
7 to 40 lower-case hexadecimal characters. -/
def looksLikeCommitSha (sha : String) : Bool :=
  let cs := sha.data
  decide (7 ≤ cs.length) && decide (cs.length ≤ 40) &&
    cs.all (fun c => c.isDigit || (decide (97 ≤ c.toNat) && decide (c.toNat ≤ 102)))

/-- The branch-name character class: letters, digits, underscore, dash,
slash and dot. -/
def branchCharOk (c : Char) : Bool :=
  c.isAlpha || c.isDigit || c == '_' || c == '-' || c == '/' || c == '.'

/-- Embeds the full-string branch-name test: one or more characters of
the allowed class. -/
def branchNameOk (branch : String) : Bool :=
  !branch.data.isEmpty && branch.data.all branchCharOk

/-- Embeds OutputValidator.validateTestOutput. -/
def validateTestOutput (tests : CommandOutput) : List ValidationIssue :=
  (if tests.exitCode == 0 && !looksLikeSuccessfulTestOutput tests.output then
    [{ type := IssueType.suspicious_content,
       message := "Test exit code is 0 (success) but output does not look like real test output - possible hallucination" }]
   else []) ++
  (if tests.exitCode != 0 && !looksLikeTestFailure tests.output then
    [{ type := IssueType.suspicious_content,
       message := "Test exit code is non-zero (failure) but output does not look like real test failure" }]
   else []) ++
  (if (trimL tests.output.data).length == 0 && tests.exitCode == 0 then
    [{ type := IssueType.invalid_format,
       message := "Test output is empty but exit code is 0 - incomplete capture" }]
   else [])

/-- Embeds OutputValidator.validateBuildOutput. -/
def validateBuildOutput (build : CommandOutput) : List ValidationIssue :=
  (if build.exitCode == 0 && !looksLikeRealBuildOutput build.output then
    [{ type := IssueType.suspicious_content,
       message := "Build exit code is 0 (success) but output does not look like real build output" }]
   else []) ++
  (if build.exitCode != 0 && !looksLikeBuildFailure build.output then
    [{ type := IssueType.suspicious_content,
       message := "Build exit code is non-zero (failure) but output does not look like real build failure" }]
   else []) ++
  (if (trimL build.output.data).length == 0 && build.exitCode == 0 then
    [{ type := IssueType.invalid_format,
       message := "Build output is empty but exit code is 0" }]
   else [])

/-- Embeds OutputValidator.validateLintOutput. -/
def validateLintOutput (lint : CommandOutput) : List ValidationIssue :=
  (if lint.exitCode == 0 && !looksLikeLintSuccess lint.output then
    [{ type := IssueType.suspicious_content,
       message := "Lint exit code is 0 (success) but output does not look like successful lint" }]
   else []) ++
  (if lint.exitCode != 0 && !looksLikeLintFailure lint.output then
    [{ type := IssueType.suspicious_content,
       message := "Lint exit code is non-zero (failure) but output does not look like real lint failure" }]
   else [])

/-- Embeds OutputValidator.validateGitStatus. -/
def validateGitStatus (git : GitStatus) : List ValidationIssue :=
  (if !looksLikeCommitSha git.lastCommitSha then
    [{ type := IssueType.git_inconsistency,
       message := "Commit SHA \"" ++ git.lastCommitSha ++ "\" does not look like a valid git commit hash" }]
   else []) ++
  (if !branchNameOk git.branch then
    [{ type := IssueType.git_inconsistency,
       message := "Branch name \"" ++ git.branch ++ "\" contains invalid characters" }]
   else []) ++
  (if git.uncommittedChanges && git.lastCommitSha != "" then
    [{ type := IssueType.git_inconsistency,
       message := "Uncommitted changes reported but task claims to be complete" }]
   else [])

/-- Embeds OutputValidator.validate: validate all outputs together. -/
def validate (verification : Verification) (gitStatus : GitStatus) : ValidationResult :=
  let issues :=
    validateTestOutput verification.tests ++
    validateBuildOutput verification.build ++
    validateLintOutput verification.lint ++
    validateGitStatus gitStatus
  { valid := issues.length == 0, issues := issues }

end OutputValidator

/-! ## ConcurrencyManager (src/src/concurrency-manager.ts) -/

/-- Observable state of the semaphore: the active holder count, the
clamped limit, and the FIFO queue of suspended waiters (identified by
tokens; the head is the next one to be woken). -/
structure ConcurrencyManager where
  activeCount : Nat
  maxConcurrency : Nat
  queue : List Nat
deriving DecidableEq, Repr

/-- Embeds the constructor: the limit is clamped to at least 1 by
Math.max(1, maxConcurrency).  The JavaScript number argument is an
Int. -/
def mkConcurrencyManager (maxConcurrency : Int) : ConcurrencyManager :=
  { activeCount := 0, maxConcurrency := (max 1 maxConcurrency).toNat, queue := [] }

/-- One pass of the acquire loop body: when a slot is free the caller
becomes a holder (true); otherwise it is appended to the wait queue
and suspends (false), to retry the loop once woken. -/
def acquireStep (s : ConcurrencyManager) (w : Nat) : ConcurrencyManager × Bool :=
  if s.activeCount ≥ s.maxConcurrency then
    ({ s with queue := s.queue ++ [w] }, false)
  else
    ({ s with activeCount := s.activeCount + 1 }, true)

/-- Embeds the release closure returned by acquire: decrement
activeCount, shift the queue, and wake the shifted waiter when one
exists. -/
def releaseStep (s : ConcurrencyManager) : ConcurrencyManager × Option Nat :=
  let s1 := { s with activeCount := s.activeCount - 1 }
  match s1.queue with
  | [] => (s1, none)
  | w :: rest => ({ s1 with queue := rest }, some w)

/-- Events of the semaphore step relation. -/
inductive SemEvent where
  | tryAcquire (w : Nat)
  | release
deriving Repr

/-- The step function of the semaphore. -/
def semStep (s : ConcurrencyManager) : SemEvent → ConcurrencyManager
  | SemEvent.tryAcquire w => (acquireStep s w).1
  | SemEvent.release => (releaseStep s).1

/-- States reachable from a fresh manager by a sequence of events. -/
def runEvents (n : Int) (evs : List SemEvent) : ConcurrencyManager :=
  evs.foldl semStep (mkConcurrencyManager n)

/-- Embeds ConcurrencyManager.run: acquire, run fn, release in a
finally block.  fn captures the wrapped call as either a returned
value or a raised error.  The model covers the case where acquire
completes at once (a slot is free); when every slot is held the call
suspends, returned here as none. -/
def runWrapped {α : Type} (s : ConcurrencyManager) (fn : Except String α) :
    Option (Except String α × ConcurrencyManager) :=
  let (s1, acquired) := acquireStep s 0
  if acquired then some (fn, (releaseStep s1).1) else none

/-! ## StateManager (state-manager.ts, src/unnamed/part_004) -/

/-- A JSON value, the result of a successful JSON.parse. -/
inductive JsonVal where
  | null
  | bool (b : Bool)
  | num (n : Int)
  | str (s : String)
  | arr (xs : List JsonVal)
  | obj (fields : List (String × JsonVal))

/-- Errors surfaced by loadState, distinct by construction from the
absent result ok none. -/
inductive LoadError where
  | invalidJson (msg : String)
  | schemaError (msg : String)
deriving DecidableEq, Repr

/-- Embeds getStatePath: join of the state directory and
taskId + .json. -/
def statePath (taskId : String) : String :=
  ".claudefather/state/" ++ taskId ++ ".json"

/-- A disk is a partial map from paths to file contents; none models
ENOENT. -/
def Disk : Type := String → Option String

/-- Embeds StateManager.loadState.  The platform pieces are
parameters: jsonParse models JSON.parse (error carries the thrown
SyntaxError message) and schemaParse models TaskStateSchema.parse
(error carries the thrown ZodError).  ENOENT is caught and becomes the
absent result ok none; a SyntaxError is rethrown as the invalid-JSON
error naming the task; a schema error propagates unchanged. -/
def loadState (jsonParse : String → Except String JsonVal)
    (schemaParse : JsonVal → Except String TaskState)
    (disk : Disk) (taskId : String) : Except LoadError (Option TaskState) :=
  match disk (statePath taskId) with
  | none => Except.ok none
  | some content =>
    match jsonParse content with
    | Except.error m =>
      Except.error (LoadError.invalidJson
        ("Invalid JSON in state file for " ++ taskId ++ ": " ++ m))
    | Except.ok j =>
      match schemaParse j with
      | Except.error m => Except.error (LoadError.schemaError m)
      | Except.ok st => Except.ok (some st)

/-- Embeds StateManager.resetTask: when the state file exists its
content is overwritten with the empty string (the code clears the file
rather than deleting it); when it does not exist nothing happens. -/
def resetTask (disk : Disk) (taskId : String) : Disk :=
  match disk (statePath taskId) with
  | none => disk
  | some _ => fun p => if p = statePath taskId then some "" else disk p

/-! ## AISupervisor (src/src/supervisor.ts) -/

/-- The retry ceiling, the maxAttempts constant of processTask. -/
def maxAttempts : Nat := 3

/-- Embeds AISupervisor.isBlocker. -/
def isBlocker (status : TaskStatus) : Bool :=
  [TaskStatus.HUMAN_REVIEW_REQUIRED,
   TaskStatus.TESTS_FAILING_STUCK,
   TaskStatus.BUILD_FAILING_STUCK,
   TaskStatus.LINT_ERRORS_STUCK,
   TaskStatus.MISSING_INFORMATION,
   TaskStatus.EXTERNAL_DEPENDENCY_BLOCKED,
   TaskStatus.MERGE_CONFLICT_DETECTED].contains status

/-- The fallback verification record synthesized on the failure
paths. -/
def defaultVerification : Verification :=
  { tests := { exitCode := 1, output := "", summary := "" },
    build := { exitCode := 1, output := "", summary := "" },
    lint := { exitCode := 1, output := "", summary := "" } }

/-- The fallback git status synthesized on the failure paths. -/
def defaultGitStatus : GitStatus :=
  { branch := "", uncommittedChanges := true, lastCommitMessage := "",
    lastCommitSha := "" }

/-- JavaScript a or-else b on strings: the empty string is falsy. -/
def strOr (a b : String) : String := if a = "" then b else a

/-- The state synthesized when the attempt counter exceeds the
ceiling: a spread of the previous state with status, blocker context,
attempt number and timestamps replaced.  The source dereferences the
previous state with a non-null assertion; the branch is reachable only
when a previous state exists, so the model takes it as an argument. -/
def maxRetriesState (now : String) (attemptNum : Int) (prev : TaskState) : TaskState :=
  { prev with
    status := TaskStatus.HUMAN_REVIEW_REQUIRED,
    blockerContext := some "Max retries exceeded",
    attemptNumber := attemptNum,
    startedAt := strOr prev.startedAt now,
    completedAt := now,
    filesChanged := prev.filesChanged,
    summary := strOr prev.summary "Task failed after max retries",
    verification := prev.verification,
    gitStatus := prev.gitStatus }

/-- The fresh state synthesized when the try block of an attempt
throws. -/
def errorState (now taskId msg : String) (attemptNum : Int)
    (prev : Option TaskState) : TaskState :=
  { taskId := taskId,
    status := TaskStatus.HUMAN_REVIEW_REQUIRED,
    blockerContext := some ("Error during execution: " ++ msg),
    attemptNumber := attemptNum,
    startedAt := strOr (match prev with | some p => p.startedAt | none => "") now,
    completedAt := now,
    filesChanged := (match prev with | some p => p.filesChanged | none => []),
    summary := strOr (match prev with | some p => p.summary | none => "")
      ("Task failed: " ++ msg),
    verification := (match prev with | some p => p.verification | none => defaultVerification),
    gitStatus := (match prev with | some p => p.gitStatus | none => defaultGitStatus) }

/-- The downgraded state persisted when validation finds issues: the
worker state with status NEEDS_RETRY and the issue messages attached
as feedback. -/
def retryStateOf (wst : TaskState) : TaskState :=
  { wst with
    status := TaskStatus.NEEDS_RETRY,
    feedback := some
      { issues := (OutputValidator.validate wst.verification wst.gitStatus).issues.map
          ValidationIssue.message,
        instruction := "Please fix the following issues and try again" } }

/-- Which branch ended processTask, recorded in the observable
trace. -/
inductive ProcExit where
  | skippedComplete
  | stoppedBlockedBefore
  | loopCondition
  | ceiling
  | verified
  | blocked
  | errored
  | outOfFuel
deriving DecidableEq, Repr

/-- Observable trace of one processTask call: how many times the
worker was invoked, the states persisted in order, whether and with
which code process.exit was called, and the branch that ended the
call. -/
structure ProcResult where
  invocations : Nat
  saves : List TaskState
  exitCode : Option Int
  exit : ProcExit
deriving DecidableEq, Repr

/-- The last state persisted during the call, i.e. the stored record
the call leaves behind when it persisted anything. -/
def lastSave (r : ProcResult) : Option TaskState := r.saves.getLast?

/-- The while condition of the retry loop, negated: the loop stops on
a verified-complete or blocker state. -/
def loopDone : Option TaskState → Bool
  | none => false
  | some s => s.status == TaskStatus.VERIFIED_COMPLETE || isBlocker s.status

/-- Embeds the while loop of AISupervisor.processTask.  worker models
ClaudeRunner.run for this task: from the attempt number to either the
task state read back after the run, or the message of a thrown error.
now models the wall clock.  fuel bounds the number of iterations so
the recursion is total; running out of fuel is recorded in the
trace. -/
def processLoop (worker : Int → Except String TaskState) (now taskId : String) :
    Nat → Option TaskState → Nat → List TaskState → ProcResult
  | 0, _, invocations, saves =>
    { invocations := invocations, saves := saves, exitCode := none,
      exit := ProcExit.outOfFuel }
  | Nat.succ fuel, state, invocations, saves =>
    if loopDone state then
      { invocations := invocations, saves := saves, exitCode := none,
        exit := ProcExit.loopCondition }
    else
      let attemptNum : Int := (match state with | some s => s.attemptNumber | none => 0) + 1
      if attemptNum > (maxAttempts : Int) then
        match state with
        | some prev =>
          let hr := maxRetriesState now attemptNum prev
          { invocations := invocations, saves := saves ++ [hr], exitCode := some 0,
            exit := ProcExit.ceiling }
        | none =>
          -- unreachable: with no previous state attemptNum is 1 and maxAttempts is 3
          { invocations := invocations, saves := saves, exitCode := some 0,
            exit := ProcExit.ceiling }
      else
        match worker attemptNum with
        | Except.error msg =>
          let errSt := errorState now taskId msg attemptNum state
          { invocations := invocations + 1, saves := saves ++ [errSt],
            exitCode := some 1, exit := ProcExit.errored }
        | Except.ok wst =>
          let validation := OutputValidator.validate wst.verification wst.gitStatus
          if !validation.valid then
            processLoop worker now taskId fuel (some (retryStateOf wst)) (invocations + 1)
              (saves ++ [retryStateOf wst])
          else if wst.status = TaskStatus.VERIFIED_COMPLETE then
            { invocations := invocations + 1, saves := saves ++ [wst], exitCode := none,
              exit := ProcExit.verified }
          else if wst.status = TaskStatus.TASK_COMPLETE then
            processLoop worker now taskId fuel
              (some { wst with status := TaskStatus.NEEDS_RETRY }) (invocations + 1) saves
          else if isBlocker wst.status then
            { invocations := invocations + 1, saves := saves ++ [wst], exitCode := some 0,
              exit := ProcExit.blocked }
          else
            processLoop worker now taskId fuel (some wst) (invocations + 1) saves

/-- Embeds AISupervisor.processTask from the point after loadState:
stored is the state loaded for the task.  An already verified-complete
state returns at once; an already blocked state logs and calls
process.exit(0); otherwise the retry loop runs. -/
def processTask (worker : Int → Except String TaskState) (now taskId : String)
    (stored : Option TaskState) (fuel : Nat) : ProcResult :=
  match stored with
  | some s =>
    if s.status = TaskStatus.VERIFIED_COMPLETE then
      { invocations := 0, saves := [], exitCode := none, exit := ProcExit.skippedComplete }
    else if isBlocker s.status then
      { invocations := 0, saves := [], exitCode := some 0,
        exit := ProcExit.stoppedBlockedBefore }
    else processLoop worker now taskId fuel stored 0 []
  | none => processLoop worker now taskId fuel none 0 []

/-- One task of the run queue: the identifier, the stored state the
supervisor will load for it, and its worker behavior. -/
structure QueuedTask where
  taskId : String
  stored : Option TaskState
  worker : Int → Except String TaskState

/-- Embeds AISupervisor.run: process every loaded task in order.  A
process.exit inside processTask terminates the whole Node process, so
later tasks are never reached.  Returns the identifiers of the tasks
whose processTask call was entered, and the exit code when the process
terminated early. -/
def runTasks (now : String) (fuel : Nat) : List QueuedTask → List String × Option Int
  | [] => ([], none)
  | t :: rest =>
    let r := processTask t.worker now t.taskId t.stored fuel
    match r.exitCode with
    | some c => ([t.taskId], some c)
    | none =>
      let (ps, e) := runTasks now fuel rest
      (t.taskId :: ps, e)

/-! ## Concrete fixtures used by witnesses and counterexamples -/

/-- A command output with exit code 0 and empty captured output. -/
def cmdEmptyOk : CommandOutput := { exitCode := 0, output := "", summary := "" }

/-- A verification record whose captured outputs are all empty with
exit code 0; the validator flags it. -/
def verifEmpty : Verification := { tests := cmdEmptyOk, build := cmdEmptyOk, lint := cmdEmptyOk }

/-- A verification record with failing commands and realistic failure
output; the validator accepts it. -/
def verifFailing : Verification :=
  { tests := { exitCode := 1, output := "FAIL x\nError: expected", summary := "failing" },
    build := { exitCode := 1, output := "error: failed", summary := "failing" },
    lint := { exitCode := 1, output := "error: 2 errors", summary := "failing" } }

/-- A clean git status the validator accepts. -/
def gitClean : GitStatus :=
  { branch := "main", uncommittedChanges := false, lastCommitMessage := "m",
    lastCommitSha := "abc1234" }

/-- The example of the specification: a syntactically valid 7-character
commit id together with uncommitted changes. -/
def gitDirtyDeadbee : GitStatus :=
  { branch := "main", uncommittedChanges := true, lastCommitMessage := "done",
    lastCommitSha := "deadbee" }

/-- A stored state already verified complete. -/
def stateVerified : TaskState :=
  { taskId := "t1", status := TaskStatus.VERIFIED_COMPLETE,
    verification := verifFailing, gitStatus := gitClean, attemptNumber := 1,
    startedAt := "s", completedAt := "c", filesChanged := ["a.ts"], summary := "done" }

/-- A stored state already blocked. -/
def stateBlocked : TaskState :=
  { taskId := "t1", status := TaskStatus.MISSING_INFORMATION,
    verification := verifFailing, gitStatus := gitClean, attemptNumber := 1,
    startedAt := "s", completedAt := "c", filesChanged := [], summary := "stuck" }

/-- A worker state claiming completion whose git status carries the
deadbee inconsistency and whose verification is otherwise clean. -/
def stateClaimsDone : TaskState :=
  { taskId := "t1", status := TaskStatus.TASK_COMPLETE,
    verification := verifFailing, gitStatus := gitDirtyDeadbee, attemptNumber := 1,
    startedAt := "s", completedAt := "c", filesChanged := ["a.ts"], summary := "did work" }

/-- A worker that always claims completion with empty captured outputs
(so validation fails) and reports the attempt number it was given. -/
def retryWorker (n : Int) : Except String TaskState :=
  Except.ok
    { taskId := "t1", status := TaskStatus.TASK_COMPLETE,
      verification := verifEmpty, gitStatus := gitClean, attemptNumber := n,
      startedAt := "s", completedAt := "c", filesChanged := [], summary := "did work" }

/-! ## Claims -/

/-- Claim C1.  For every task whose stored TaskState has status
VERIFIED_COMPLETE or one of the blocker statuses, processTask makes
zero Worker invocations and persists nothing, so the stored record is
left byte-identical. -/
theorem claim1_terminal_states_skip
    (worker : Int → Except String TaskState) (now taskId : String)
    (s : TaskState) (fuel : Nat)
    (h : s.status = TaskStatus.VERIFIED_COMPLETE ∨ isBlocker s.status = true) :
    (processTask worker now taskId (some s) fuel).invocations = 0 ∧
    (processTask worker now taskId (some s) fuel).saves = [] := by
  rcases h with h | h
  · simp [processTask, h]
  · by_cases hv : s.status = TaskStatus.VERIFIED_COMPLETE
    · simp [processTask, hv]
    · simp [processTask, hv, h]

/-- Witness for C1 at a concrete verified-complete stored state and a
concrete blocked stored state. -/
theorem claim1_witness :
    ((stateVerified.status = TaskStatus.VERIFIED_COMPLETE ∨
        isBlocker stateVerified.status = true) ∧
      (processTask retryWorker "NOW" "t1" (some stateVerified) 5).invocations = 0 ∧
      (processTask retryWorker "NOW" "t1" (some stateVerified) 5).saves = []) ∧
    ((stateBlocked.status = TaskStatus.VERIFIED_COMPLETE ∨
        isBlocker stateBlocked.status = true) ∧
      (processTask retryWorker "NOW" "t1" (some stateBlocked) 5).invocations = 0 ∧
      (processTask retryWorker "NOW" "t1" (some stateBlocked) 5).saves = []) :=
  ⟨⟨Or.inl rfl,
    claim1_terminal_states_skip retryWorker "NOW" "t1" stateVerified 5 (Or.inl rfl)⟩,
   ⟨Or.inr rfl,
    claim1_terminal_states_skip retryWorker "NOW" "t1" stateBlocked 5 (Or.inr rfl)⟩⟩

/-- The semaphore step does not change the limit. -/
lemma semStep_max (s : ConcurrencyManager) (e : SemEvent) :
    (semStep s e).maxConcurrency = s.maxConcurrency := by
  cases e with
  | tryAcquire w =>
    simp only [semStep, acquireStep]
    split <;> rfl
  | release =>
    simp only [semStep, releaseStep]
    cases s.queue <;> rfl

/-- The semaphore step preserves the holder bound. -/
lemma semStep_active_le (s : ConcurrencyManager) (e : SemEvent)
    (h : s.activeCount ≤ s.maxConcurrency) :
    (semStep s e).activeCount ≤ (semStep s e).maxConcurrency := by
  cases e with
  | tryAcquire w =>
    simp only [semStep, acquireStep]
    split
    · simpa using h
    · next hge =>
      simp only [ge_iff_le, Nat.not_le] at hge
      simpa using hge
  | release =>
    simp only [semStep, releaseStep]
    cases s.queue <;> simp <;> omega

/-- The holder bound is preserved by any event sequence. -/
lemma foldl_semStep_inv (evs : List SemEvent) :
    ∀ s : ConcurrencyManager, s.activeCount ≤ s.maxConcurrency →
      ((evs.foldl semStep s).activeCount ≤ (evs.foldl semStep s).maxConcurrency) := by
  induction evs with
  | nil => intro s h; exact h
  | cons e es ih =>
    intro s h
    simpa [List.foldl] using ih (semStep s e) (semStep_active_le s e h)

/-- Claim C3.  In every reachable state of the semaphore the holder
count never exceeds the limit; the limit is clamped to at least 1
whatever the constructor argument; a blocked acquire appends the
waiter at the queue tail; a release on a nonempty queue wakes exactly
the queue head and removes exactly it; a release on an empty queue
wakes nobody. -/
theorem claim3_concurrency_invariants (n : Int) (evs : List SemEvent) :
    1 ≤ (mkConcurrencyManager n).maxConcurrency ∧
    (runEvents n evs).activeCount ≤ (runEvents n evs).maxConcurrency ∧
    (∀ (s : ConcurrencyManager) (w : Nat), s.activeCount ≥ s.maxConcurrency →
      (acquireStep s w).1.queue = s.queue ++ [w] ∧ (acquireStep s w).2 = false ∧
      (acquireStep s w).1.activeCount = s.activeCount) ∧
    (∀ (s : ConcurrencyManager) (w : Nat) (rest : List Nat), s.queue = w :: rest →
      (releaseStep s).2 = some w ∧ (releaseStep s).1.queue = rest) ∧
    (∀ s : ConcurrencyManager, s.queue = [] → (releaseStep s).2 = none) := by
  refine ⟨?_, ?_, ?_, ?_, ?_⟩
  · have h1 : (1 : Int) ≤ max 1 n := le_max_left 1 n
    have h2 := Int.toNat_le_toNat h1
    simp only [mkConcurrencyManager]
    exact h2
  · exact foldl_semStep_inv evs (mkConcurrencyManager n) (by simp [mkConcurrencyManager])
  · intro s w h
    unfold acquireStep
    rw [if_pos h]
    exact ⟨rfl, rfl, rfl⟩
  · intro s w rest hq
    unfold releaseStep
    simp [hq]
  · intro s hq
    unfold releaseStep
    simp [hq]

/-- Witness for C3: a run of two events on a manager built from a
nonpositive constructor argument, a blocked acquire on a full manager,
and releases on nonempty and empty queues. -/
theorem claim3_witness :
    (1 ≤ (mkConcurrencyManager 0).maxConcurrency ∧
      (runEvents 0 [SemEvent.tryAcquire 1, SemEvent.release]).activeCount ≤
        (runEvents 0 [SemEvent.tryAcquire 1, SemEvent.release]).maxConcurrency) ∧
    ((acquireStep ⟨1, 1, [5]⟩ 7).1.queue = [5, 7] ∧ (acquireStep ⟨1, 1, [5]⟩ 7).2 = false) ∧
    ((releaseStep ⟨1, 1, [5, 7]⟩).2 = some 5 ∧ (releaseStep ⟨1, 1, [5, 7]⟩).1.queue = [7]) ∧
    (releaseStep ⟨1, 1, ([] : List Nat)⟩).2 = none := by
  have h := claim3_concurrency_invariants 0 [SemEvent.tryAcquire 1, SemEvent.release]
  refine ⟨⟨h.1, h.2.1⟩, ?_, ?_, ?_⟩
  · have ha := h.2.2.1 ⟨1, 1, [5]⟩ 7 (by decide)
    exact ⟨ha.1, ha.2.1⟩
  · exact h.2.2.2.1 ⟨1, 1, [5, 7]⟩ 5 [7] rfl
  · exact h.2.2.2.2 ⟨1, 1, []⟩ rfl

/-- Claim C8.  When a slot is free, run(fn) acquires it, propagates
the result or exception of fn unchanged, and the release in the
finally block restores the active count to its value before the call,
for returning and raising fn alike. -/
theorem claim8_run_releases {α : Type} (s : ConcurrencyManager) (fn : Except String α)
    (h : s.activeCount < s.maxConcurrency) :
    ∃ s2, runWrapped s fn = some (fn, s2) ∧ s2.activeCount = s.activeCount ∧
      s2.maxConcurrency = s.maxConcurrency := by
  unfold runWrapped acquireStep
  rw [if_neg (Nat.not_le.mpr h)]
  refine ⟨_, rfl, ?_, ?_⟩ <;> unfold releaseStep <;> cases s.queue <;> simp

/-- Witness for C8 at a concrete manager with a free slot, once with a
returned value and once with a raised error. -/
theorem claim8_witness :
    ((⟨1, 2, []⟩ : ConcurrencyManager).activeCount <
        (⟨1, 2, []⟩ : ConcurrencyManager).maxConcurrency ∧
      ∃ s2, runWrapped (⟨1, 2, []⟩ : ConcurrencyManager) (Except.ok 42) =
          some (Except.ok 42, s2) ∧ s2.activeCount = 1 ∧ s2.maxConcurrency = 2) ∧
    (∃ s2, runWrapped (⟨1, 2, []⟩ : ConcurrencyManager)
        (Except.error (α := Nat) "boom") = some (Except.error "boom", s2) ∧
      s2.activeCount = 1 ∧ s2.maxConcurrency = 2) :=
  ⟨⟨by decide, claim8_run_releases ⟨1, 2, []⟩ (Except.ok 42) (by decide)⟩,
   claim8_run_releases ⟨1, 2, []⟩ (Except.error "boom") (by decide)⟩

/-- Claim C9.  validate is a total function (its Lean embedding is a
plain function, so it never raises and mutates nothing) and its valid
flag is true exactly when its issue list is empty. -/
theorem claim9_valid_iff_no_issues (v : Verification) (g : GitStatus) :
    (OutputValidator.validate v g).valid = true ↔
      (OutputValidator.validate v g).issues = [] := by
  unfold OutputValidator.validate
  simp only []
  rw [beq_iff_eq, List.length_eq_zero]

/-- Claim C10.  The validator treats empty command output
asymmetrically: a lint result with exit code 0 and empty output yields
no issues, while a test result with exit code 0 and empty output
yields at least one issue, among them the invalid-format incomplete
capture issue. -/
theorem claim10_empty_output_asymmetry :
    OutputValidator.validateLintOutput { exitCode := 0, output := "", summary := "" } = [] ∧
    1 ≤ (OutputValidator.validateTestOutput
      { exitCode := 0, output := "", summary := "" }).length ∧
    (OutputValidator.validateTestOutput
      { exitCode := 0, output := "", summary := "" }).any
        (fun i => i.type == IssueType.invalid_format &&
          i.message == "Test output is empty but exit code is 0 - incomplete capture") = true := by
  refine ⟨rfl, ?_, ?_⟩ <;> decide

/-- The saves of a loop run extend the accumulator: persisted states
are only ever appended. -/
lemma processLoop_saves_prefix (worker : Int → Except String TaskState)
    (now taskId : String) :
    ∀ (fuel : Nat) (state : Option TaskState) (inv : Nat) (saves : List TaskState),
      ∃ tl, (processLoop worker now taskId fuel state inv saves).saves = saves ++ tl := by
  intro fuel
  induction fuel with
  | zero =>
    intro state inv saves
    exact ⟨[], by simp [processLoop]⟩
  | succ fuel ih =>
    intro state inv saves
    simp only [processLoop]
    split
    · exact ⟨[], by simp⟩
    · split
      · split
        · exact ⟨_, rfl⟩
        · exact ⟨[], by simp⟩
      · split
        · exact ⟨_, rfl⟩
        · split
          · obtain ⟨tl, htl⟩ := ih _ _ _
            exact ⟨_ :: tl, by rw [htl, List.append_assoc]; rfl⟩
          · split
            · exact ⟨_, rfl⟩
            · split
              · exact ih _ _ _
              · split
                · exact ⟨_, rfl⟩
                · exact ih _ _ _

/-- Claim C4.  A git status with a well-formed commit id, a well-formed
branch name, uncommitted changes and a nonempty commit id yields
exactly one issue, of type git_inconsistency; and a worker state
claiming completion that fails validation is persisted downgraded to
NEEDS_RETRY with the issue messages attached as feedback. -/
theorem claim4_git_inconsistency_downgrade :
    (∀ g : GitStatus,
      OutputValidator.looksLikeCommitSha g.lastCommitSha = true →
      OutputValidator.branchNameOk g.branch = true →
      g.uncommittedChanges = true →
      g.lastCommitSha ≠ "" →
      OutputValidator.validateGitStatus g =
        [{ type := IssueType.git_inconsistency,
           message := "Uncommitted changes reported but task claims to be complete" }]) ∧
    (∀ (wst : TaskState) (now taskId : String) (fuel : Nat),
      wst.status = TaskStatus.TASK_COMPLETE →
      (OutputValidator.validate wst.verification wst.gitStatus).valid = false →
      (processTask (fun _ => Except.ok wst) now taskId none (fuel + 1)).saves.head? =
        some { wst with
          status := TaskStatus.NEEDS_RETRY,
          feedback := some
            { issues := (OutputValidator.validate wst.verification wst.gitStatus).issues.map
                ValidationIssue.message,
              instruction := "Please fix the following issues and try again" } }) := by
  constructor
  · intro g h1 h2 h3 h4
    simp [OutputValidator.validateGitStatus, h1, h2, h3, h4]
  · intro wst now taskId fuel hstatus hvalid
    have hstep : processTask (fun _ => Except.ok wst) now taskId none (fuel + 1) =
        processLoop (fun _ => Except.ok wst) now taskId fuel
          (some (retryStateOf wst)) 1 ([] ++ [retryStateOf wst]) := by
      simp only [processTask, processLoop, loopDone, maxAttempts]
      norm_num
      simp [hvalid]
    obtain ⟨tl, htl⟩ := processLoop_saves_prefix (fun _ => Except.ok wst) now taskId fuel
      (some (retryStateOf wst)) 1 ([] ++ [retryStateOf wst])
    rw [hstep, htl]
    simp [retryStateOf]

/-- Witness for C4: the deadbee example of the specification, and the
downgrade of a concrete claiming-complete worker state whose only
validation issue is that inconsistency. -/
theorem claim4_witness :
    (OutputValidator.looksLikeCommitSha gitDirtyDeadbee.lastCommitSha = true ∧
      OutputValidator.branchNameOk gitDirtyDeadbee.branch = true ∧
      gitDirtyDeadbee.uncommittedChanges = true ∧
      gitDirtyDeadbee.lastCommitSha ≠ "" ∧
      OutputValidator.validateGitStatus gitDirtyDeadbee =
        [{ type := IssueType.git_inconsistency,
           message := "Uncommitted changes reported but task claims to be complete" }]) ∧
    (stateClaimsDone.status = TaskStatus.TASK_COMPLETE ∧
      (OutputValidator.validate stateClaimsDone.verification
        stateClaimsDone.gitStatus).valid = false ∧
      (processTask (fun _ => Except.ok stateClaimsDone) "NOW" "t1" none 4).saves.head? =
        some { stateClaimsDone with
          status := TaskStatus.NEEDS_RETRY,
          feedback := some
            { issues := ["Uncommitted changes reported but task claims to be complete"],
              instruction := "Please fix the following issues and try again" } }) := by
  have ha := claim4_git_inconsistency_downgrade.1 gitDirtyDeadbee (by decide) (by decide)
    rfl (by decide)
  have hb := claim4_git_inconsistency_downgrade.2 stateClaimsDone "NOW" "t1" 3 rfl (by decide)
  refine ⟨⟨by decide, by decide, rfl, by decide, ha⟩, ⟨rfl, by decide, ?_⟩⟩
  rw [hb]
  decide

/-- Claim C5.  loadState returns the absent result, without raising,
exactly when no record exists on disk; a record whose content fails
JSON parsing or schema validation raises an error, an outcome distinct
from the absent result. -/
theorem claim5_load_absent_vs_corrupt
    (jsonParse : String → Except String JsonVal)
    (schemaParse : JsonVal → Except String TaskState)
    (disk : Disk) (taskId : String) :
    (disk (statePath taskId) = none →
      loadState jsonParse schemaParse disk taskId = Except.ok none) ∧
    (∀ content m, disk (statePath taskId) = some content →
      jsonParse content = Except.error m →
      loadState jsonParse schemaParse disk taskId =
        Except.error (LoadError.invalidJson
          ("Invalid JSON in state file for " ++ taskId ++ ": " ++ m)) ∧
      loadState jsonParse schemaParse disk taskId ≠ Except.ok none) ∧
    (∀ content j m, disk (statePath taskId) = some content →
      jsonParse content = Except.ok j →
      schemaParse j = Except.error m →
      loadState jsonParse schemaParse disk taskId =
        Except.error (LoadError.schemaError m) ∧
      loadState jsonParse schemaParse disk taskId ≠ Except.ok none) := by
  refine ⟨?_, ?_, ?_⟩
  · intro h
    simp [loadState, h]
  · intro content m hd hj
    constructor <;> simp [loadState, hd, hj]
  · intro content j m hd hj hs
    constructor <;> simp [loadState, hd, hj, hs]

/-- A model of JSON.parse adequate for the witnesses: the empty string
and other non-JSON content are rejected as the platform rejects them,
the empty object is accepted. -/
def jsonParseModel (s : String) : Except String JsonVal :=
  if s = "" then Except.error "Unexpected end of JSON input"
  else if s = "{}" then Except.ok (JsonVal.obj [])
  else Except.error "Unexpected token"

/-- A model of TaskStateSchema.parse that rejects the empty object, as
the schema rejects records missing required fields. -/
def schemaParseModel (_ : JsonVal) : Except String TaskState :=
  Except.error "Required fields missing"

/-- A disk with no record at all. -/
def diskNone : Disk := fun _ => none

/-- A disk holding exactly one state record. -/
def diskWith (taskId content : String) : Disk :=
  fun p => if p = statePath taskId then some content else none

/-- Witness for C5: an absent record loads as the absent result; an
empty (malformed) record and a schema-invalid record raise. -/
theorem claim5_witness :
    (loadState jsonParseModel schemaParseModel diskNone "t1" = Except.ok none) ∧
    (loadState jsonParseModel schemaParseModel (diskWith "t1" "") "t1" =
        Except.error (LoadError.invalidJson
          "Invalid JSON in state file for t1: Unexpected end of JSON input") ∧
      loadState jsonParseModel schemaParseModel (diskWith "t1" "") "t1" ≠
        Except.ok none) ∧
    (loadState jsonParseModel schemaParseModel (diskWith "t1" "{}") "t1" =
        Except.error (LoadError.schemaError "Required fields missing") ∧
      loadState jsonParseModel schemaParseModel (diskWith "t1" "{}") "t1" ≠
        Except.ok none) := by
  refine ⟨?_, ?_, ?_⟩
  · exact (claim5_load_absent_vs_corrupt jsonParseModel schemaParseModel diskNone "t1").1 rfl
  · have h := (claim5_load_absent_vs_corrupt jsonParseModel schemaParseModel
      (diskWith "t1" "") "t1").2.1 "" "Unexpected end of JSON input" rfl rfl
    exact h
  · have h := (claim5_load_absent_vs_corrupt jsonParseModel schemaParseModel
      (diskWith "t1" "{}") "t1").2.2 "{}" (JsonVal.obj []) "Required fields missing"
      rfl rfl rfl
    exact h

/-- Claim C6 is false of the code: resetTask clears the state file to
an empty string instead of deleting it, so the following loadState
parses the empty content, JSON.parse rejects it, and loadState raises
the invalid-JSON error instead of returning the absent result. -/
theorem claim6_reset_then_load_raises
    (jsonParse : String → Except String JsonVal)
    (schemaParse : JsonVal → Except String TaskState)
    (disk : Disk) (taskId content m : String)
    (hdisk : disk (statePath taskId) = some content)
    (hjson : jsonParse "" = Except.error m) :
    loadState jsonParse schemaParse (resetTask disk taskId) taskId =
      Except.error (LoadError.invalidJson
        ("Invalid JSON in state file for " ++ taskId ++ ": " ++ m)) ∧
    loadState jsonParse schemaParse (resetTask disk taskId) taskId ≠ Except.ok none := by
  have hreset : resetTask disk taskId (statePath taskId) = some "" := by
    simp [resetTask, hdisk]
  constructor <;> simp [loadState, hreset, hjson]

/-- Witness for C6: a concrete task with a stored record; after
resetTask, loadState raises instead of yielding the absent result. -/
theorem claim6_witness :
    loadState jsonParseModel schemaParseModel (resetTask (diskWith "t1" "{}") "t1") "t1" =
      Except.error (LoadError.invalidJson
        "Invalid JSON in state file for t1: Unexpected end of JSON input") ∧
    loadState jsonParseModel schemaParseModel (resetTask (diskWith "t1" "{}") "t1") "t1" ≠
      Except.ok none :=
  claim6_reset_then_load_raises jsonParseModel schemaParseModel (diskWith "t1" "{}")
    "t1" "{}" "Unexpected end of JSON input" rfl rfl

/-- Attempt accounting of a finished loop: what each terminating
branch guarantees about the invocation count and the last persisted
state. -/
def ProcPost (r : ProcResult) : Prop :=
  (r.exit = ProcExit.ceiling →
    r.invocations = maxAttempts ∧
    ∃ fin, lastSave r = some fin ∧
      fin.status = TaskStatus.HUMAN_REVIEW_REQUIRED ∧
      fin.blockerContext = some "Max retries exceeded" ∧
      fin.attemptNumber = (maxAttempts : Int) + 1) ∧
  (r.exit = ProcExit.verified →
    1 ≤ r.invocations ∧ r.invocations ≤ maxAttempts ∧
    ∃ fin, lastSave r = some fin ∧ fin.status = TaskStatus.VERIFIED_COMPLETE ∧
      fin.attemptNumber = (r.invocations : Int)) ∧
  (r.exit = ProcExit.errored →
    1 ≤ r.invocations ∧ r.invocations ≤ maxAttempts ∧
    ∃ fin, lastSave r = some fin ∧ fin.status = TaskStatus.HUMAN_REVIEW_REQUIRED ∧
      fin.attemptNumber = (r.invocations : Int)) ∧
  (r.exit = ProcExit.blocked →
    1 ≤ r.invocations ∧ r.invocations ≤ maxAttempts ∧
    ∃ fin, lastSave r = some fin ∧ isBlocker fin.status = true ∧
      fin.attemptNumber = (r.invocations : Int))

/-- The last element of a list with one element appended. -/
lemma getLast?_concat_eq {α : Type} (l : List α) (a : α) :
    (l ++ [a]).getLast? = some a := by
  rw [List.getLast?_append_cons]
  rfl

/-- For a worker that reports the attempt number it is given, every
terminating branch of the loop satisfies the attempt accounting, given
that the invocation accumulator matches the attempt number stored in
the looping state. -/
lemma processLoop_post
    (worker : Int → Except String TaskState)
    (hw : ∀ n s, worker n = Except.ok s → s.attemptNumber = n)
    (now taskId : String) :
    ∀ (fuel : Nat) (state : Option TaskState) (inv : Nat) (saves : List TaskState),
      inv ≤ maxAttempts →
      (state = none → inv = 0) →
      (∀ s, state = some s → s.attemptNumber = (inv : Int)) →
      ProcPost (processLoop worker now taskId fuel state inv saves) := by
  intro fuel
  induction fuel with
  | zero =>
    intro state inv saves hinv hnone hstate
    refine ⟨?_, ?_, ?_, ?_⟩ <;> intro h <;> simp [processLoop] at h
  | succ fuel ih =>
    intro state inv saves hinv hnone hstate
    cases state with
    | none =>
      have hz : inv = 0 := hnone rfl
      subst hz
      simp only [processLoop, loopDone]
      rw [if_neg (by simp)]
      rw [if_neg (by norm_num [maxAttempts])]
      split
      · next msg heq =>
        refine ⟨?_, ?_, ?_, ?_⟩ <;> intro h
        · simp at h
        · simp at h
        · refine ⟨?_, ?_, ?_⟩
          · show 1 ≤ 0 + 1
            norm_num
          · show 0 + 1 ≤ maxAttempts
            norm_num [maxAttempts]
          · refine ⟨errorState now taskId msg (0 + 1) none, ?_, rfl, ?_⟩
            · exact getLast?_concat_eq saves _
            · show ((0 : Int) + 1) = ((0 + 1 : Nat) : Int)
              norm_num
        · simp at h
      · next wst heq =>
        have hwa : wst.attemptNumber = 0 + 1 := hw _ _ heq
        split
        · exact ih (some (retryStateOf wst)) 1 _ (by norm_num [maxAttempts])
            (by intro hh; cases hh)
            (by intro s hs; cases hs; simp [retryStateOf, hwa])
        · split
          · next hvc =>
            refine ⟨?_, ?_, ?_, ?_⟩ <;> intro h
            · simp at h
            · refine ⟨?_, ?_, ?_⟩
              · show 1 ≤ 0 + 1
                norm_num
              · show 0 + 1 ≤ maxAttempts
                norm_num [maxAttempts]
              · refine ⟨wst, getLast?_concat_eq saves _, hvc, ?_⟩
                rw [hwa]
                norm_num
            · simp at h
            · simp at h
          · split
            · exact ih (some { wst with status := TaskStatus.NEEDS_RETRY }) 1 _
                (by norm_num [maxAttempts]) (by intro hh; cases hh)
                (by intro s hs; cases hs; simp [hwa])
            · split
              · next hb =>
                refine ⟨?_, ?_, ?_, ?_⟩ <;> intro h
                · simp at h
                · simp at h
                · simp at h
                · refine ⟨?_, ?_, ?_⟩
                  · show 1 ≤ 0 + 1
                    norm_num
                  · show 0 + 1 ≤ maxAttempts
                    norm_num [maxAttempts]
                  · refine ⟨wst, getLast?_concat_eq saves _, hb, ?_⟩
                    rw [hwa]
                    norm_num
              · exact ih (some wst) 1 _ (by norm_num [maxAttempts])
                  (by intro hh; cases hh)
                  (by intro s hs; cases hs; simp [hwa])
    | some st =>
      have hst := hstate st rfl
      simp only [processLoop, loopDone]
      split
      · refine ⟨?_, ?_, ?_, ?_⟩ <;> intro h <;> simp at h
      · next hdone =>
        split
        · next hgt =>
          rw [hst] at hgt
          have hceil : inv = maxAttempts := by omega
          refine ⟨?_, ?_, ?_, ?_⟩ <;> intro h
          · refine ⟨hceil, maxRetriesState now (st.attemptNumber + 1) st, ?_, rfl, rfl, ?_⟩
            · exact getLast?_concat_eq saves _
            · show st.attemptNumber + 1 = (maxAttempts : Int) + 1
              rw [hst, hceil]
          · simp at h
          · simp at h
          · simp at h
        · next hle =>
          rw [hst] at hle
          have hbound : inv + 1 ≤ maxAttempts := by omega
          split
          · next msg heq =>
            refine ⟨?_, ?_, ?_, ?_⟩ <;> intro h
            · simp at h
            · simp at h
            · refine ⟨?_, ?_, ?_⟩
              · show 1 ≤ inv + 1
                omega
              · show inv + 1 ≤ maxAttempts
                exact hbound
              · refine ⟨errorState now taskId msg (st.attemptNumber + 1) (some st), ?_, rfl, ?_⟩
                · exact getLast?_concat_eq saves _
                · show st.attemptNumber + 1 = ((inv + 1 : Nat) : Int)
                  rw [hst]
                  push_cast
                  ring
            · simp at h
          · next wst heq =>
            have hwa : wst.attemptNumber = st.attemptNumber + 1 := hw _ _ heq
            split
            · refine ih (some (retryStateOf wst)) (inv + 1) _ hbound
                (by intro hh; cases hh) ?_
              intro s hs
              cases hs
              show (retryStateOf wst).attemptNumber = ((inv + 1 : Nat) : Int)
              rw [show (retryStateOf wst).attemptNumber = wst.attemptNumber from rfl, hwa, hst]
              push_cast
              ring
            · split
              · next hvc =>
                refine ⟨?_, ?_, ?_, ?_⟩ <;> intro h
                · simp at h
                · refine ⟨?_, ?_, ?_⟩
                  · show 1 ≤ inv + 1
                    omega
                  · show inv + 1 ≤ maxAttempts
                    exact hbound
                  · refine ⟨wst, getLast?_concat_eq saves _, hvc, ?_⟩
                    show wst.attemptNumber = ((inv + 1 : Nat) : Int)
                    rw [hwa, hst]
                    push_cast
                    ring
                · simp at h
                · simp at h
              · split
                · refine ih (some { wst with status := TaskStatus.NEEDS_RETRY }) (inv + 1) _
                    hbound (by intro hh; cases hh) ?_
                  intro s hs
                  cases hs
                  show wst.attemptNumber = ((inv + 1 : Nat) : Int)
                  rw [hwa, hst]
                  push_cast
                  ring
                · split
                  · next hb =>
                    refine ⟨?_, ?_, ?_, ?_⟩ <;> intro h
                    · simp at h
                    · simp at h
                    · simp at h
                    · refine ⟨?_, ?_, ?_⟩
                      · show 1 ≤ inv + 1
                        omega
                      · show inv + 1 ≤ maxAttempts
                        exact hbound
                      · refine ⟨wst, getLast?_concat_eq saves _, hb, ?_⟩
                        show wst.attemptNumber = ((inv + 1 : Nat) : Int)
                        rw [hwa, hst]
                        push_cast
                        ring
                  · refine ih (some wst) (inv + 1) _ hbound (by intro hh; cases hh) ?_
                    intro s hs
                    cases hs
                    show wst.attemptNumber = ((inv + 1 : Nat) : Int)
                    rw [hwa, hst]
                    push_cast
                    ring

/-- Counterexample for C2 as stated.  With a worker that reports the
attempt number it is given and always claims completion with an empty
capture (so validation fails and every attempt retries), processing a
fresh task makes 3 worker invocations, yet the final persisted state
carries attemptNumber 4: greater than the ceiling of 3 and different
from the number of invocations. -/
theorem claim2_counterexample :
    (processTask retryWorker "NOW" "t1" none 10).invocations = 3 ∧
    (lastSave (processTask retryWorker "NOW" "t1" none 10)).map TaskState.attemptNumber =
      some 4 ∧
    (lastSave (processTask retryWorker "NOW" "t1" none 10)).map TaskState.status =
      some TaskStatus.HUMAN_REVIEW_REQUIRED ∧
    ¬ ((4 : Int) ≤ (maxAttempts : Int)) ∧
    (4 : Int) ≠ ((processTask retryWorker "NOW" "t1" none 10).invocations : Int) := by
  refine ⟨rfl, rfl, rfl, ?_, ?_⟩
  · norm_num [maxAttempts]
  · rw [show (processTask retryWorker "NOW" "t1" none 10).invocations = 3 from rfl]
    norm_num

/-- Amended claim C2.  For every worker honoring the protocol of
reporting the attempt number it is given, and every fresh task
processed to termination: on retry-ceiling exhaustion exactly
maxAttempts worker invocations were made and a HUMAN_REVIEW_REQUIRED
state carrying the last known partial state is persisted before the
task is abandoned, with attemptNumber equal to maxAttempts + 1, that
is, invocations + 1; on every other termination with a persisted final
state (verified, worker error, worker-reported blocker) the final
attemptNumber equals the number of invocations and is at most the
ceiling.  So the final persisted attemptNumber is bounded by
maxAttempts + 1, not by maxAttempts. -/
theorem claim2_amended_attempt_accounting
    (worker : Int → Except String TaskState) (now taskId : String) (fuel : Nat)
    (hw : ∀ n s, worker n = Except.ok s → s.attemptNumber = n) :
    ((processTask worker now taskId none fuel).exit = ProcExit.ceiling →
      (processTask worker now taskId none fuel).invocations = maxAttempts ∧
      ∃ fin, lastSave (processTask worker now taskId none fuel) = some fin ∧
        fin.status = TaskStatus.HUMAN_REVIEW_REQUIRED ∧
        fin.blockerContext = some "Max retries exceeded" ∧
        fin.attemptNumber = (maxAttempts : Int) + 1 ∧
        fin.attemptNumber =
          ((processTask worker now taskId none fuel).invocations : Int) + 1) ∧
    (∀ e, (processTask worker now taskId none fuel).exit = e →
      (e = ProcExit.verified ∨ e = ProcExit.errored ∨ e = ProcExit.blocked) →
      (processTask worker now taskId none fuel).invocations ≤ maxAttempts ∧
      ∃ fin, lastSave (processTask worker now taskId none fuel) = some fin ∧
        fin.attemptNumber =
          ((processTask worker now taskId none fuel).invocations : Int) ∧
        fin.attemptNumber ≤ (maxAttempts : Int)) := by
  have hpost := processLoop_post worker hw now taskId fuel none 0 []
    (by norm_num) (fun _ => rfl) (by intro s hs; cases hs)
  have hform : processTask worker now taskId none fuel =
      processLoop worker now taskId fuel none 0 [] := rfl
  rw [hform]
  constructor
  · intro hx
    obtain ⟨hinvoc, fin, hlast, hstat, hctx, hnum⟩ := hpost.1 hx
    exact ⟨hinvoc, fin, hlast, hstat, hctx, hnum, by rw [hnum, hinvoc]⟩
  · intro e hx he
    rcases he with he | he | he
    · subst he
      obtain ⟨h1, h2, fin, hlast, hstat, hnum⟩ := hpost.2.1 hx
      refine ⟨h2, fin, hlast, hnum, ?_⟩
      rw [hnum]
      exact_mod_cast h2
    · subst he
      obtain ⟨h1, h2, fin, hlast, hstat, hnum⟩ := hpost.2.2.1 hx
      refine ⟨h2, fin, hlast, hnum, ?_⟩
      rw [hnum]
      exact_mod_cast h2
    · subst he
      obtain ⟨h1, h2, fin, hlast, hstat, hnum⟩ := hpost.2.2.2 hx
      refine ⟨h2, fin, hlast, hnum, ?_⟩
      rw [hnum]
      exact_mod_cast h2

/-- The retrying worker reports the attempt number it is given. -/
lemma retryWorker_protocol : ∀ n s, retryWorker n = Except.ok s → s.attemptNumber = n := by
  intro n s h
  simp only [retryWorker, Except.ok.injEq] at h
  rw [← h]

/-- Witness for the amended C2: the retrying worker exhausts the
ceiling, and the amended accounting holds at that concrete run. -/
theorem claim2_witness :
    (processTask retryWorker "NOW" "t1" none 10).exit = ProcExit.ceiling ∧
    (processTask retryWorker "NOW" "t1" none 10).invocations = maxAttempts ∧
    ∃ fin, lastSave (processTask retryWorker "NOW" "t1" none 10) = some fin ∧
      fin.status = TaskStatus.HUMAN_REVIEW_REQUIRED ∧
      fin.blockerContext = some "Max retries exceeded" ∧
      fin.attemptNumber = (maxAttempts : Int) + 1 ∧
      fin.attemptNumber =
        ((processTask retryWorker "NOW" "t1" none 10).invocations : Int) + 1 := by
  have h := (claim2_amended_attempt_accounting retryWorker "NOW" "t1" 10
    retryWorker_protocol).1 rfl
  exact ⟨rfl, h⟩

/-- Counterexample for C7 as stated.  A queue of two tasks in which the
first is blocked: the supervisor calls process.exit(0) while handling
the first task, so the second task is never processed. -/
theorem claim7_counterexample :
    runTasks "NOW" 10
      [⟨"t1", some stateBlocked, retryWorker⟩, ⟨"t2", none, retryWorker⟩] =
      (["t1"], some 0) ∧
    "t2" ∉ (runTasks "NOW" 10
      [⟨"t1", some stateBlocked, retryWorker⟩, ⟨"t2", none, retryWorker⟩]).1 := by
  constructor
  · rfl
  · rw [show (runTasks "NOW" 10
      [⟨"t1", some stateBlocked, retryWorker⟩, ⟨"t2", none, retryWorker⟩]).1 =
        ["t1"] from rfl]
    decide

/-- Amended claim C7.  A single failing task aborts processing of the
remaining tasks: when processTask of one task calls process.exit (as
it does for a stored blocker status, and on the error and ceiling
paths), the run ends with that task and no later task is processed;
in particular a task whose stored state is a blocker exits the process
with code 0. -/
theorem claim7_amended_failure_aborts_run
    (now : String) (fuel : Nat) (c : Int)
    (pre : List QueuedTask) (t : QueuedTask) (rest : List QueuedTask)
    (hpre : ∀ q ∈ pre, (processTask q.worker now q.taskId q.stored fuel).exitCode = none)
    (ht : (processTask t.worker now t.taskId t.stored fuel).exitCode = some c) :
    (runTasks now fuel (pre ++ t :: rest) =
      (pre.map QueuedTask.taskId ++ [t.taskId], some c)) ∧
    (∀ (w : Int → Except String TaskState) (tid : String) (s : TaskState) (f : Nat),
      isBlocker s.status = true →
      (processTask w now tid (some s) f).exitCode = some 0) := by
  constructor
  · induction pre with
    | nil =>
      simp [runTasks, ht]
    | cons q qs ihq =>
      have hq := hpre q (by simp)
      have hqs : ∀ q2 ∈ qs,
          (processTask q2.worker now q2.taskId q2.stored fuel).exitCode = none :=
        fun q2 hq2 => hpre q2 (by simp [hq2])
      simp [runTasks, hq, ihq hqs]
  · intro w tid s f hb
    have hv : s.status ≠ TaskStatus.VERIFIED_COMPLETE := by
      intro hv
      rw [hv] at hb
      simp [isBlocker] at hb
    simp [processTask, hv, hb]

/-- Witness for the amended C7: one successfully skipped task, then a
blocked task; the run stops there and the task queued after it is not
processed. -/
theorem claim7_witness :
    (runTasks "NOW" 5
      ([⟨"t0", some stateVerified, retryWorker⟩] ++
        (⟨"t1", some stateBlocked, retryWorker⟩ : QueuedTask) ::
          [⟨"t3", none, retryWorker⟩]) =
      (["t0", "t1"], some 0)) ∧
    (processTask retryWorker "NOW" "tb" (some stateBlocked) 5).exitCode = some 0 := by
  have h := claim7_amended_failure_aborts_run "NOW" 5 0
    [⟨"t0", some stateVerified, retryWorker⟩]
    ⟨"t1", some stateBlocked, retryWorker⟩
    [⟨"t3", none, retryWorker⟩]
    (by
      intro q hq
      simp only [List.mem_singleton] at hq
      subst hq
      rfl)
    rfl
  exact ⟨h.1, h.2 retryWorker "tb" stateBlocked 5 rfl⟩
